import Mathlib

/-
  Verification of the batch-graphql dispatch engine against its
  natural-language specification.

  The definitions below are a shallow embedding of the Go sources:
    * batch/client.go   (Client.Do, ensureValidToken, login, NewClient headers)
    * batch/stats.go    (VerboseStats counters)
    * the run loop file (RunWith, processRequest, writeError, writeResponse,
                         checkAndWriteError)
  External collaborators (the JSON decoder, the HTTP transport, the
  x/sync/semaphore, the wall clock) are modelled as explicit environment
  data consumed by the embedded control flow, exactly where the Go code
  calls into them.
-/

set_option linter.unusedVariables false

namespace BatchGraphQL

/-- JSON-representable values, abstracting Go's `any` as produced by
`encoding/json`.  The engine never inspects these values structurally; it
only carries them from the decoder to the encoders. -/
inductive JVal
  | null
  | bool (b : Bool)
  | num (n : Int)
  | str (s : String)
  | arr (elems : List JVal)
  | obj (fields : List (String × JVal))

/-- A decoded variable set: Go's `map[string]any`, one per input row. -/
abbrev VarMap := List (String × JVal)

/- ===================== Client.Do and processRequest ===================== -/

/-- Result of running `json.NewDecoder(body).Decode(&response)` on a
response body: either the decoded value or the decoder's error message. -/
inductive BodyDecode
  | val (v : JVal)
  | bad (msg : String)

/-- An HTTP response body: the raw bytes (as read by `io.ReadAll`) together
with the outcome of JSON-decoding those bytes. -/
structure HTTPBody where
  raw : String
  decoded : BodyDecode

/-- Outcome of `c.httpClient.Do(request)` for the GraphQL call: either a
transport-level error (no response at all) or a status code with a body. -/
inductive HTTPResult
  | transportErr (msg : String)
  | response (status : Nat) (body : HTTPBody)

/-- The `(io.ReadCloser, error)` pair returned by `Client.Do` in client.go:
`errNoBody` is a nil body with an error (token failure or transport
failure), `errWithBody` is the non-2xx branch that returns both the body
and the "invalid status code" error, `okBody` is the success return. -/
inductive DoResult
  | errNoBody (msg : String)
  | errWithBody (status : Nat) (body : HTTPBody)
  | okBody (body : HTTPBody)

/-- Embedding of `Client.Do` (client.go): after `ensureValidToken` and
request construction, it performs the call; on transport error it returns
`(nil, err)`; on a status outside [200,300) it returns the body together
with an `invalid status code` error; otherwise the body with no error. -/
def clientDo (tokenRes : Except String String) (http : HTTPResult) : DoResult :=
  match tokenRes with
  | Except.error m => DoResult.errNoBody m
  | Except.ok _ =>
    match http with
    | HTTPResult.transportErr m => DoResult.errNoBody m
    | HTTPResult.response status body =>
      if status < 200 ∨ 300 ≤ status then DoResult.errWithBody status body
      else DoResult.okBody body

/-- The `(any, error)` pair returned by `processRequest` in the run loop:
`ok` carries the decoded response, `failed` carries the error message and
the value placed in the record's `output` field (`none` models Go `nil`). -/
inductive ProcResult
  | ok (resp : JVal)
  | failed (msg : String) (diag : Option JVal)

/-- Embedding of `processRequest` (run loop file): on an error from
`Client.Do` it returns `string(response)` — the raw bytes when a body was
available, and `string(nil) = ""` when not — together with the error; on
success it JSON-decodes the body, returning `(nil, err)` on a decode
failure and the decoded map otherwise. -/
def processRequest (d : DoResult) : ProcResult :=
  match d with
  | DoResult.errNoBody m => ProcResult.failed m (some (JVal.str ""))
  | DoResult.errWithBody st body =>
      ProcResult.failed ("invalid status code " ++ toString st) (some (JVal.str body.raw))
  | DoResult.okBody body =>
      match body.decoded with
      | BodyDecode.bad m => ProcResult.failed m none
      | BodyDecode.val v => ProcResult.ok v

/-- Amended-claim characterization of the call outcome (C7), written from the
amended claim's words for comparison with the composition of `clientDo` and
`processRequest`: success exactly on a 2xx status with a JSON-decodable
body; a non-2xx status yields a failure carrying the raw response bytes; a
2xx body that fails to decode yields a failure with an absent output; a
token or transport failure yields a failure whose attached output is the
empty string (no bytes were available). -/
def callOutcomeSpec (tokenRes : Except String String) (http : HTTPResult) : ProcResult :=
  match tokenRes with
  | Except.error m => ProcResult.failed m (some (JVal.str ""))
  | Except.ok _ =>
    match http with
    | HTTPResult.transportErr m => ProcResult.failed m (some (JVal.str ""))
    | HTTPResult.response status body =>
      if 200 ≤ status ∧ status < 300 then
        match body.decoded with
        | BodyDecode.val v => ProcResult.ok v
        | BodyDecode.bad m => ProcResult.failed m none
      else
        ProcResult.failed ("invalid status code " ++ toString status) (some (JVal.str body.raw))

/- ===================== Request headers (Client.Do) ===================== -/

/-- Go's `http.Header` is a map from (canonical) header names to lists of
values; we model it as a function, which is exactly a map.  Header keys in
the configured header (parsed by `ReadMIMEHeader` in `NewClient`) are
already in canonical MIME form, as are the literal keys used by `Do`, so
canonicalization is the identity on everything the code touches. -/
def HdrMap := String → List String

def emptyHdr : HdrMap := fun _ => []

/-- `http.Header.Add`: appends a value to the key's value list. -/
def hdrAdd (h : HdrMap) (k v : String) : HdrMap :=
  fun q => if q = k then h k ++ [v] else h q

/-- `http.Header.Set`: replaces the key's value list with a singleton. -/
def hdrSet (h : HdrMap) (k v : String) : HdrMap :=
  fun q => if q = k then [v] else h q

/-- The inner loop `for _, v := range hv { request.Header.Add(hk, v) }`. -/
def addVals (h : HdrMap) (k : String) (vs : List String) : HdrMap :=
  vs.foldl (fun a v => hdrAdd a k v) h

/-- The header-copying loop of `Client.Do`:
`for hk, hv := range c.header { ... Add(hk, v) ... }` starting from the
fresh request's empty header. -/
def copyConfigured (cfg : List (String × List String)) : HdrMap :=
  cfg.foldl (fun a kv => addVals a kv.1 kv.2) emptyHdr

/-- Embedding of the header-assembly portion of `Client.Do` (client.go):
copy every configured header with `Add`, then `Set` Content-Type to
application/json, then, if a non-empty token is available, `Set` the
Authorization header to the bearer token. -/
def doHeaders (cfg : List (String × List String)) (token : String) : HdrMap :=
  let h := copyConfigured cfg
  let h := hdrSet h "Content-Type" "application/json"
  if token ≠ "" then hdrSet h "Authorization" ("Bearer " ++ token) else h

/- ===================== login (Token Authority) ===================== -/

/-- Parse outcome for the login response body, i.e. of
`json.NewDecoder(response.Body).Decode(resp)` against the struct with
`access_token` and `expires_in` fields. -/
inductive TokenBody
  | parsedTok (accessToken : String) (expiresIn : Nat)
  | malformed (msg : String)

/-- Outcome of `c.httpClient.Do(request)` for the credential exchange. -/
inductive LoginHTTP
  | transportErr (msg : String)
  | response (status : Nat) (body : TokenBody)

/-- The `(string, error)` pair returned by `login`. -/
inductive LoginResult
  | ok (token : String) (expiresIn : Nat)
  | err (msg : String)

/-- Embedding of `login` (client.go): transport errors propagate; any
status other than exactly 200 is rejected; a body that fails to parse
propagates the decoder error; an empty access token is rejected; otherwise
the token (and its advertised lifetime) is returned. -/
def login (resp : LoginHTTP) : LoginResult :=
  match resp with
  | LoginHTTP.transportErr m => LoginResult.err m
  | LoginHTTP.response status body =>
    if status ≠ 200 then
      LoginResult.err ("invalid status code " ++ toString status ++ " during login")
    else
      match body with
      | TokenBody.malformed m => LoginResult.err m
      | TokenBody.parsedTok tok exp =>
        if tok = "" then LoginResult.err "login response did not include access token"
        else LoginResult.ok tok exp

/-- Whether the embedded `login` succeeded. -/
def loginOk (resp : LoginHTTP) : Bool :=
  match login resp with
  | LoginResult.ok _ _ => true
  | LoginResult.err _ => false

/-- Amended-claim characterization of login success (C6), written from the
amended claim's words: the exchange succeeds exactly on a response with
status exactly 200 whose body parses and carries a non-empty access
token. -/
def loginSucceedsSpec : LoginHTTP → Bool
  | LoginHTTP.response status (TokenBody.parsedTok tok _) => status == 200 && tok != ""
  | _ => false

/- ===================== token cache (ensureValidToken) ===================== -/

/-- The Dynamic-mode (OAuth configured) credential state of `Client`:
the cached token pointer and the instant at which the `time.AfterFunc`
timer armed by the last login clears it.  Time is measured in twentieths
of a second so that the instants 0.5·L, 0.9·L and 0.95·L of the claims are
exact for every integer lifetime L. -/
structure DynClient where
  token : Option String
  clearAt : Option Nat

/-- The cache as visible at tick `now`: the `time.AfterFunc` callback armed
at login runs at its scheduled tick and sets `c.token = nil`. -/
def cacheAt (c : DynClient) (now : Nat) : Option String :=
  match c.clearAt with
  | some t => if t ≤ now then none else c.token
  | none => c.token

/-- Embedding of `ensureValidToken` (client.go) in Dynamic mode, as invoked
at tick `now`; the double-checked locking collapses, for a single caller, to
the sequential read-check-login below.  A fast unsynchronized read returns
any non-empty cached token; the locked double check returns whatever token
pointer is still cached; otherwise `login` runs — the environment supplies
its (successful) result `loginTok` with advertised lifetime `loginLifetime`
seconds — the token is cached and the clearing timer is armed at
`floor(0.9 * lifetime)` seconds (`math.Floor(float64(expiresIn)*0.9)`,
which for a natural lifetime L equals `(9*L)/10` whole seconds, i.e.
`20 * ((9*L)/10)` ticks) after `now`.  The returned Boolean records whether
a login exchange was performed. -/
def ensureValidToken (c : DynClient) (now : Nat) (loginTok : String)
    (loginLifetime : Nat) : String × DynClient × Bool :=
  let fast := (cacheAt c now).getD ""
  if fast ≠ "" then (fast, c, false)
  else
    match cacheAt c now with
    | some tok => (tok, c, false)
    | none =>
        (loginTok,
         { token := some loginTok,
           clearAt := some (now + 20 * ((9 * loginLifetime) / 10)) },
         true)

/-- The client state right after a first successful login at tick 0 with
token `tok` and advertised lifetime `L` seconds. -/
def afterFirstLogin (tok : String) (L : Nat) : DynClient :=
  (ensureValidToken { token := none, clearAt := none } 0 tok L).2.1

/-- Whether a second `currentToken` call at tick `t` after a first login
with lifetime `L` performs a new login exchange. -/
def secondCallLogsIn (L t : Nat) : Bool :=
  (ensureValidToken (afterFirstLogin "tokenA" L) t "tokenB" L).2.2

/- ===================== Result Sink and counters ===================== -/

/-- One atomic counter increment on `VerboseStats` (stats.go):
`AddProcessed` and `AddError` are separate atomic additions. -/
inductive StatOp
  | addProcessed
  | addError
deriving DecidableEq

/-- One line of the `result` struct of the run loop file: `input` is the Go
map (which may be nil), `output` the Go `any` (nil modelled as `none`),
`error` the error-message pointer. -/
structure ResultLine where
  row : Nat
  input : Option VarMap
  output : Option JVal
  error : Option String

/-- The observable output of a run: the two streams in write order and the
counter increments.  Each stream's writes are serialized by its encoder,
and the encoders are modelled as always succeeding (the claims concern
runs in which the output files are writable).  `ops` is a reference
serialization of the counter increments, each write contributing its
increments contiguously in launch order; it fixes the multiset of
increments, not their real order: the increments are separate atomic adds
with no lock, so in the program the pairs of concurrent writes interleave
arbitrarily.  Statements about counter traces therefore quantify over all
permutations of `ops` (a superset of the real interleavings, which at
least preserve each write's internal order). -/
structure Sink where
  errStream : List ResultLine
  outStream : List ResultLine
  ops : List StatOp

/-- Embedding of `writeError` (run loop file): it increments the error
counter, then the processed counter, then encodes a record with a populated
error message onto the error stream. -/
def writeError (msg : String) (input : Option VarMap) (output : Option JVal)
    (row : Nat) (s : Sink) : Sink :=
  { s with
    ops := s.ops ++ [StatOp.addError, StatOp.addProcessed],
    errStream := s.errStream ++ [{ row := row, input := input, output := output, error := some msg }] }

/-- Embedding of `writeResponse` (run loop file): it increments the
processed counter and encodes a record with a `nil` error onto the success
stream. -/
def writeResponse (input : VarMap) (response : JVal) (row : Nat) (s : Sink) : Sink :=
  { s with
    ops := s.ops ++ [StatOp.addProcessed],
    outStream := s.outStream ++ [{ row := row, input := some input, output := some response, error := none }] }

/- ===================== Dispatch Loop (RunWith) ===================== -/

/-- The result of one `input.Decode(&variables)` call that did not return
`io.EOF`: either a decode error (with whatever the map holds after the
failed decode) or a successfully decoded variable set. -/
inductive RowRead
  | failed (msg : String) (varsSoFar : VarMap)
  | ok (vars : VarMap)

/-- One `input.Decode` call's outcome as seen by the loop. -/
inductive ReadRes
  | eof
  | next (r : RowRead)

/-- The outcome of one `sm.Acquire(ctx, 1)` call: granted, failed with the
context's error (cancellation), or never returning (capacity below the
requested weight under a context that is never done). -/
inductive AcqRes
  | ok
  | failed (msg : String)
  | hang

/-- The engine state threaded through the loop: the sink, how many non-EOF
reads happened, which rows were granted a permit, which rows had their
goroutine launched, and whether the loop is stuck forever inside
`Acquire`. -/
structure RunState where
  sink : Sink
  rowsRead : Nat
  permits : List Nat
  dispatched : List Nat
  hung : Bool

/-- The launched goroutine's body (run loop file): it runs
`processRequest` — whose outcome for this row the environment supplies as
`call` — and routes the outcome to `writeError` (with the row's variables
as input and the returned partial value as output) or `writeResponse`.
Completion order across rows is abstracted by recording the outcome at
launch; the per-row record sets and the increment multiset do not depend
on that order, and the counter-trace statements below range over all
permutations of the recorded increment sequence, covering the
cross-goroutine interleavings of the separate atomic adds. -/
def dispatch (vars : VarMap) (call : ProcResult) (row : Nat) (st : RunState) : RunState :=
  match call with
  | ProcResult.ok v =>
      { st with
        dispatched := st.dispatched ++ [row],
        sink := writeResponse vars v row st.sink }
  | ProcResult.failed msg diag =>
      { st with
        dispatched := st.dispatched ++ [row],
        sink := writeError msg (some vars) diag row st.sink }

/-- The read-handling prefix of one loop iteration: a non-EOF decode error
is passed to `checkAndWriteError`, which writes a failure record with nil
input and nil output for the row; in both cases the loop then falls
through with the decoded (or partially decoded) variable map — the source
contains no `continue`. -/
def readPhase (r : RowRead) (row : Nat) (st : RunState) : VarMap × RunState :=
  match r with
  | RowRead.failed msg vs =>
      (vs, { st with
             rowsRead := st.rowsRead + 1,
             sink := writeError msg none none row st.sink })
  | RowRead.ok vs =>
      (vs, { st with rowsRead := st.rowsRead + 1 })

/-- One full non-EOF iteration of the `RunWith` loop: read handling, then
`sm.Acquire(ctx, 1)`; an acquire error is passed to `checkAndWriteError`
(a failure record with nil input and output), after which the code again
falls through — `wg.Add(1)` and the goroutine launch happen regardless,
so the row is dispatched even without a permit.  The Boolean is false
exactly when the loop blocked forever inside `Acquire`. -/
def stepRow (r : RowRead) (acq : AcqRes) (call : ProcResult) (row : Nat)
    (st : RunState) : RunState × Bool :=
  match readPhase r row st with
  | (vars, st1) =>
    match acq with
    | AcqRes.hang => ({ st1 with hung := true }, false)
    | AcqRes.failed msg =>
        (dispatch vars call row { st1 with sink := writeError msg none none row st1.sink }, true)
    | AcqRes.ok =>
        (dispatch vars call row { st1 with permits := st1.permits ++ [row] }, true)

/-- Embedding of the `RunWith` loop (run loop file).  `reads` supplies the
successive `input.Decode` outcomes (an exhausted list behaves like EOF),
`acqs` the successive `Acquire` outcomes, `calls` the successive
per-dispatch `processRequest` outcomes.  On EOF the loop breaks and
`wg.Wait()` drains the launched goroutines, whose outcomes are already in
the state. -/
def runWith : List ReadRes → List AcqRes → List ProcResult → Nat → RunState → RunState
  | [], _, _, _, st => st
  | ReadRes.eof :: _, _, _, _, st => st
  | ReadRes.next r :: reads, acqs, calls, row, st =>
    match stepRow r (acqs.headD AcqRes.ok) (calls.headD (ProcResult.ok JVal.null)) (row + 1) st with
    | (st1, true) => runWith reads acqs.tail calls.tail (row + 1) st1
    | (st1, false) => st1

/-- The initial engine state of `RunWith` (`row := 0`, empty streams). -/
def initState : RunState :=
  { sink := { errStream := [], outStream := [], ops := [] },
    rowsRead := 0, permits := [], dispatched := [], hung := false }

/-- A whole run of `RunWith` from the initial state. -/
def RunWithModel (reads : List ReadRes) (acqs : List AcqRes)
    (calls : List ProcResult) : RunState :=
  runWith reads acqs calls 0 initState

/-- The run used in the C1 evaluation: one input record whose decode
fails, admission granted, a responsive endpoint answering with a decodable
2xx body. -/
def runOneMalformed : RunState :=
  RunWithModel
    [ReadRes.next (RowRead.failed "invalid character after top-level value" [])]
    [AcqRes.ok] [ProcResult.ok (JVal.obj [("data", JVal.null)])]

/-- The run used in the C2 evaluation: the first record malformed, then
EOF; admission granted; the dispatched call fails remotely. -/
def runMalformedThenEof : RunState :=
  RunWithModel
    [ReadRes.next (RowRead.failed "unexpected end of JSON input" []), ReadRes.eof]
    [AcqRes.ok] [ProcResult.failed "invalid status code 500" (some (JVal.str "oops"))]

/-- The run used in the C3 evaluation: two well-formed records; the first
`Acquire` fails with the cancelled context's error, the second is granted;
the first dispatched call fails (its context is cancelled), the second
succeeds. -/
def runCancelledFirstAcquire : RunState :=
  RunWithModel
    [ReadRes.next (RowRead.ok [("x", JVal.num 1)]),
     ReadRes.next (RowRead.ok [("x", JVal.num 2)]), ReadRes.eof]
    [AcqRes.failed "context canceled", AcqRes.ok]
    [ProcResult.failed "Post: context canceled" none,
     ProcResult.ok (JVal.obj [("data", JVal.num 4)])]

/-- The run used in the C8 evaluation: two well-formed records, both
admitted, both calls failing — its two failure writes run in two distinct
goroutines, so their atomic increments can interleave. -/
def runTwoFailures : RunState :=
  RunWithModel
    [ReadRes.next (RowRead.ok [("x", JVal.num 1)]),
     ReadRes.next (RowRead.ok [("x", JVal.num 2)]), ReadRes.eof]
    [AcqRes.ok, AcqRes.ok]
    [ProcResult.failed "invalid status code 500" (some (JVal.str "boom")),
     ProcResult.failed "invalid status code 500" (some (JVal.str "boom"))]

/-- The first `sm.Acquire(ctx, 1)` on a fresh `semaphore.NewWeighted(size)`
(x/sync/semaphore): with no permits held, the fast path grants when
`0 + 1 <= size`; otherwise, since the requested weight 1 exceeds `size`,
the call waits solely on `ctx.Done()` — forever when the context is never
done (the CLI passes `context.Background()`), else until cancellation. -/
def semAcquireFirst (size : Int) (ctxNeverDone : Bool) : AcqRes :=
  if 1 ≤ size then AcqRes.ok
  else if ctxNeverDone then AcqRes.hang
  else AcqRes.failed "context canceled"

/- ===================== counter traces (VerboseStats) ===================== -/

/-- The effect of one atomic increment on the counter pair
(processed, errored). -/
def applyStat : Nat × Nat → StatOp → Nat × Nat
  | (p, e), StatOp.addProcessed => (p + 1, e)
  | (p, e), StatOp.addError => (p, e + 1)

/-- Every observable state of the counter pair along a run, in execution
order, starting from (0, 0): an unsynchronized reader (`Values`) can see
any element of this trace. -/
def statTrace (ops : List StatOp) : List (Nat × Nat) :=
  List.scanl applyStat (0, 0) ops

/-- The counter pair at completion of a run. -/
def finalStats (ops : List StatOp) : Nat × Nat :=
  List.foldl applyStat (0, 0) ops

/-- The increment sequences that the sink can generate: a concatenation of
`writeError` blocks (`AddError` then `AddProcessed`) and `writeResponse`
blocks (`AddProcessed`). -/
inductive OpsBlocks : List StatOp → Prop
  | nil : OpsBlocks []
  | fail (rest : List StatOp) : OpsBlocks rest →
      OpsBlocks (StatOp.addError :: StatOp.addProcessed :: rest)
  | pass (rest : List StatOp) : OpsBlocks rest →
      OpsBlocks (StatOp.addProcessed :: rest)

/-- The sink invariant tying the counters to the streams: the final counter
pair equals (number of records written, number of error records written),
and the increment sequence is a concatenation of write blocks. -/
def SinkGood (s : Sink) : Prop :=
  finalStats s.ops = (s.outStream.length + s.errStream.length, s.errStream.length)
  ∧ OpsBlocks s.ops

end BatchGraphQL


namespace BatchGraphQL

lemma opsBlocks_append_fail (l : List StatOp) (h : OpsBlocks l) :
    OpsBlocks (l ++ [StatOp.addError, StatOp.addProcessed]) := by
  induction h with
  | nil => exact OpsBlocks.fail [] OpsBlocks.nil
  | fail rest hr ih => exact OpsBlocks.fail _ ih
  | pass rest hr ih => exact OpsBlocks.pass _ ih

lemma opsBlocks_append_pass (l : List StatOp) (h : OpsBlocks l) :
    OpsBlocks (l ++ [StatOp.addProcessed]) := by
  induction h with
  | nil => exact OpsBlocks.pass [] OpsBlocks.nil
  | fail rest hr ih => exact OpsBlocks.fail _ ih
  | pass rest hr ih => exact OpsBlocks.pass _ ih

lemma sinkGood_writeError (msg : String) (input : Option VarMap) (output : Option JVal)
    (row : Nat) (s : Sink) (h : SinkGood s) : SinkGood (writeError msg input output row s) := by
  obtain ⟨h1, h2⟩ := h
  refine ⟨?_, opsBlocks_append_fail _ h2⟩
  simp only [writeError, finalStats, List.foldl_append] at *
  rw [h1]
  simp [applyStat, List.length_append]
  omega

lemma sinkGood_writeResponse (input : VarMap) (response : JVal)
    (row : Nat) (s : Sink) (h : SinkGood s) : SinkGood (writeResponse input response row s) := by
  obtain ⟨h1, h2⟩ := h
  refine ⟨?_, opsBlocks_append_pass _ h2⟩
  simp only [writeResponse, finalStats, List.foldl_append] at *
  rw [h1]
  simp [applyStat, List.length_append]
  omega

lemma sinkGood_dispatch (vars : VarMap) (call : ProcResult) (row : Nat) (st : RunState)
    (h : SinkGood st.sink) : SinkGood (dispatch vars call row st).sink := by
  cases call with
  | ok v => exact sinkGood_writeResponse _ _ _ _ h
  | failed msg diag => exact sinkGood_writeError _ _ _ _ _ h

lemma sinkGood_readPhase (r : RowRead) (row : Nat) (st : RunState)
    (h : SinkGood st.sink) : SinkGood (readPhase r row st).2.sink := by
  cases r with
  | failed msg vs => exact sinkGood_writeError _ _ _ _ _ h
  | ok vs => exact h

lemma sinkGood_stepRow (r : RowRead) (acq : AcqRes) (call : ProcResult) (row : Nat)
    (st : RunState) (h : SinkGood st.sink) : SinkGood (stepRow r acq call row st).1.sink := by
  have h1 := sinkGood_readPhase r row st h
  cases acq with
  | hang => simpa [stepRow] using h1
  | failed msg =>
      simp only [stepRow]
      exact sinkGood_dispatch _ _ _ _ (sinkGood_writeError _ _ _ _ _ h1)
  | ok =>
      simp only [stepRow]
      exact sinkGood_dispatch _ _ _ _ h1

lemma sinkGood_runWith (reads : List ReadRes) :
    ∀ (acqs : List AcqRes) (calls : List ProcResult) (row : Nat) (st : RunState),
      SinkGood st.sink → SinkGood (runWith reads acqs calls row st).sink := by
  induction reads with
  | nil => intro acqs calls row st h; simpa [runWith] using h
  | cons hd tl ih =>
    intro acqs calls row st h
    cases hd with
    | eof => simpa [runWith] using h
    | next r =>
      have hstep := sinkGood_stepRow r (acqs.headD AcqRes.ok)
        (calls.headD (ProcResult.ok JVal.null)) (row + 1) st h
      rw [runWith]
      rcases hs : stepRow r (acqs.headD AcqRes.ok)
        (calls.headD (ProcResult.ok JVal.null)) (row + 1) st with ⟨st1, cont⟩
      rw [hs] at hstep
      cases cont with
      | false => exact hstep
      | true => exact ih _ _ _ _ hstep

lemma finalStats_perm (ops1 ops2 : List StatOp) (h : List.Perm ops1 ops2) :
    finalStats ops1 = finalStats ops2 :=
  h.foldl_eq'
    (fun x _ y _ z => by rcases z with ⟨p, e⟩; cases x <;> cases y <;> simp [applyStat])
    (0, 0)

lemma scanl_head (f : Nat × Nat → StatOp → Nat × Nat) (b : Nat × Nat) (l : List StatOp) :
    (List.scanl f b l).head? = some b := by
  cases l <;> simp [List.scanl]

lemma statTrace_chain (ops : List StatOp) :
    ∀ s0 : Nat × Nat,
      List.Chain' (fun a b => a.1 ≤ b.1 ∧ a.2 ≤ b.2) (List.scanl applyStat s0 ops) := by
  induction ops with
  | nil => intro s0; simp [List.scanl]
  | cons o ops ih =>
      intro s0
      show List.Chain' _ (s0 :: List.scanl applyStat (applyStat s0 o) ops)
      refine List.chain'_cons'.mpr ⟨?_, ih _⟩
      intro y hy
      rw [scanl_head] at hy
      simp only [Option.mem_def, Option.some.injEq] at hy
      subst hy
      rcases s0 with ⟨p, e⟩
      cases o <;> simp [applyStat]

end BatchGraphQL

namespace BatchGraphQL

/-- C1: evaluation of the dispatch loop at the failing input — a run over a
single input record whose decode fails (no fatal pre-flight condition,
admission granted, a responsive endpoint).  The loop writes a read-failure
record for row 1 and then, lacking a `continue`, still dispatches row 1,
whose outcome is recorded as well: N = 1 input record yields two
ResultRecords, both carrying Row 1, contradicting the claimed exactly-N /
no-duplicate invariant. -/
theorem malformed_input_breaks_row_bijection :
    runOneMalformed.rowsRead = 1
    ∧ List.map ResultLine.row
        (runOneMalformed.sink.errStream ++ runOneMalformed.sink.outStream) = [1, 1] :=
  ⟨rfl, rfl⟩

/-- C2: evaluation at the failing input — a run whose first record is
malformed.  After writing the Failure record for row 1, the loop does not
move on: it requests admission, the row consumes the concurrency permit
(`permits = [1]`), the row is dispatched as a call (`dispatched = [1]`),
and a second record for row 1 is written, contradicting the claim that a
malformed row is skipped without requesting admission. -/
theorem malformed_row_consumes_permit_and_dispatches :
    runMalformedThenEof.permits = [1] ∧ runMalformedThenEof.dispatched = [1]
    ∧ List.map ResultLine.row runMalformedThenEof.sink.errStream = [1, 1] :=
  ⟨rfl, rfl, rfl⟩

/-- C3: evaluation at the failing input — the context is cancelled while
row 1 waits for admission (`Acquire` returns the context error), the next
acquire being granted again.  Contrary to the claim, the affected row is
not dropped: a Failure record for row 1 is written, the row is dispatched
anyway — without holding a permit (`dispatched = [1, 2]` but
`permits = [2]`) — its call outcome produces a second row-1 record, and
the loop does not stop accepting rows: row 2 is still read, admitted and
dispatched. -/
theorem cancelled_admission_still_emits_and_dispatches :
    runCancelledFirstAcquire.rowsRead = 2
    ∧ runCancelledFirstAcquire.dispatched = [1, 2]
    ∧ runCancelledFirstAcquire.permits = [2]
    ∧ List.map ResultLine.row runCancelledFirstAcquire.sink.errStream = [1, 1]
    ∧ List.map ResultLine.row runCancelledFirstAcquire.sink.outStream = [2] :=
  ⟨rfl, rfl, rfl, rfl, rfl⟩

/-- C4: evaluation at the failing input — `connections = 0` (same for any
negative value), a never-done context (the CLI's `context.Background()`),
and a non-empty input.  No configuration error is raised anywhere: the
first `Acquire` on the zero-capacity semaphore blocks forever, but only
after the first input record has already been read, contradicting the
claim that the run fails before any row is read. -/
theorem nonpositive_connections_hangs_after_first_read :
    semAcquireFirst 0 true = AcqRes.hang
    ∧ semAcquireFirst (-1) true = AcqRes.hang
    ∧ (let st := RunWithModel
          [ReadRes.next (RowRead.ok [("x", JVal.num 1)]),
           ReadRes.next (RowRead.ok [("x", JVal.num 2)]), ReadRes.eof]
          [semAcquireFirst 0 true] []
       st.hung = true ∧ st.rowsRead = 1
       ∧ st.sink.errStream = [] ∧ st.sink.outStream = [] ∧ st.dispatched = []) :=
  ⟨rfl, rfl, rfl, rfl, rfl, rfl, rfl⟩

/-- C5 counterexample: for an advertised lifetime of L = 1 second, the
clearing timer is armed at `floor(0.9 * 1) = 0` seconds — not at 90% of
the lifetime — so a second `currentToken` call at `0.5 * L` (tick 10 =
0.5 s) finds the cache already cleared and performs a new login, where the
claim requires the cached token to be returned with no new login. -/
theorem dynamic_token_L1_cleared_immediately :
    (afterFirstLogin "tokenA" 1).clearAt = some 0
    ∧ secondCallLogsIn 1 (10 * 1) = true :=
  ⟨rfl, rfl⟩

/-- C5 (amended): the cached token is invalidated at `floor(0.9 * L)` whole
seconds after login (tick `20 * ((9*L)/10)`), and for every lifetime
L ≥ 3 the claimed observations hold: a second call at `0.5 * L` (tick
10·L) returns the cached token with no login, and a second call at
`0.95 * L` (tick 19·L) performs a new login. -/
theorem dynamic_token_expiry_floor_90_percent (L : Nat) (h : 3 ≤ L) :
    (afterFirstLogin "tokenA" L).clearAt = some (20 * ((9 * L) / 10))
    ∧ secondCallLogsIn L (10 * L) = false
    ∧ secondCallLogsIn L (19 * L) = true := by
  have hA : ("tokenA" : String) ≠ "" := by decide
  have hlo : ¬ (20 * ((9 * L) / 10) ≤ 10 * L) := by omega
  have hhi : 20 * ((9 * L) / 10) ≤ 19 * L := by omega
  refine ⟨?_, ?_, ?_⟩
  · simp [afterFirstLogin, ensureValidToken, cacheAt]
  · simp [secondCallLogsIn, afterFirstLogin, ensureValidToken, cacheAt, hlo, hA]
  · simp [secondCallLogsIn, afterFirstLogin, ensureValidToken, cacheAt, hhi]

/-- C5 witness: the amended statement instantiated at the concrete
lifetime L = 3600 seconds. -/
theorem dynamic_token_expiry_floor_90_percent_witness :
    3 ≤ 3600
    ∧ ((afterFirstLogin "tokenA" 3600).clearAt = some (20 * ((9 * 3600) / 10))
       ∧ secondCallLogsIn 3600 (10 * 3600) = false
       ∧ secondCallLogsIn 3600 (19 * 3600) = true) :=
  ⟨by decide, dynamic_token_expiry_floor_90_percent 3600 (by decide)⟩

/-- C6 counterexample: a credential-exchange response with the 2xx status
201, a parseable body and a non-empty access token — the claim requires
this login to succeed, but the code rejects every status other than
exactly 200. -/
theorem login_rejects_status_201 :
    login (LoginHTTP.response 201 (TokenBody.parsedTok "tok123" 3600))
      = LoginResult.err "invalid status code 201 during login"
    ∧ (200 ≤ 201 ∧ 201 < 300) ∧ ("tok123" : String) ≠ "" :=
  ⟨rfl, by omega, by decide⟩

/-- C6 (amended): the login exchange fails exactly when the response's
status is not exactly 200 (including 2xx statuses other than 200), its
body cannot be parsed, or the parsed access token is empty; every
status-200 response with a parseable body and a non-empty access token
succeeds and returns that token. -/
theorem login_succeeds_iff_status_200_nonempty_token :
    (∀ resp : LoginHTTP, loginOk resp = loginSucceedsSpec resp)
    ∧ ∀ (tok : String) (exp : Nat),
        login (LoginHTTP.response 200 (TokenBody.parsedTok tok exp)) =
          if tok = "" then LoginResult.err "login response did not include access token"
          else LoginResult.ok tok exp := by
  constructor
  · intro resp
    cases resp with
    | transportErr m => rfl
    | response status body =>
      by_cases hs : status = 200
      · subst hs
        cases body with
        | malformed m => simp [loginOk, login, loginSucceedsSpec]
        | parsedTok tok exp =>
          by_cases ht : tok = "" <;>
            simp [loginOk, login, loginSucceedsSpec, ht]
      · cases body <;> simp [loginOk, login, loginSucceedsSpec, hs]
  · intro tok exp
    by_cases ht : tok = "" <;> simp [login, ht]

/-- C7 counterexample: on a transport failure the call outcome is a
Failure whose attached output is the empty string (`string(nil) = ""`),
i.e. a present value, not the absent output the claim requires for
transport failures. -/
theorem transport_failure_attaches_empty_string :
    processRequest (clientDo (Except.ok "") (HTTPResult.transportErr "connection refused"))
      = ProcResult.failed "connection refused" (some (JVal.str ""))
    ∧ (some (JVal.str "") : Option JVal) ≠ none :=
  ⟨rfl, by simp⟩

/-- C7 (amended): full characterization of the per-call outcome — success
with the decoded body exactly on a 2xx status whose body decodes; a
non-2xx status yields a Failure carrying the raw response bytes; a 2xx
body that fails to decode yields a Failure with an absent partial
response; a token or transport failure yields a Failure carrying the
empty string (no response bytes were available) rather than an absent
value. -/
theorem processRequest_characterization (tokenRes : Except String String) (http : HTTPResult) :
    processRequest (clientDo tokenRes http) = callOutcomeSpec tokenRes http := by
  cases tokenRes with
  | error m => rfl
  | ok tok =>
    cases http with
    | transportErr m => rfl
    | response status body =>
      by_cases h : status < 200 ∨ 300 ≤ status
      · have h2 : ¬ (200 ≤ status ∧ status < 300) := by omega
        simp [clientDo, callOutcomeSpec, processRequest, h, h2]
      · have h2 : 200 ≤ status ∧ status < 300 := by omega
        cases hb : body.decoded <;>
          simp [clientDo, callOutcomeSpec, processRequest, h, h2, hb]

/-- C8 counterexample: a run over two input records whose calls both fail.
`writeError` performs `AddError` before `AddProcessed` as two separate
atomic increments with no lock, and the two failure writes run in distinct
goroutines, so the interleaving in which both writes increment the error
counter before either increments the processed counter is realizable: it
is a permutation of the run's recorded increment sequence that respects
each write's internal order.  Along it the unsynchronized reader can
observe the states (0,1) and (0,2) — `errored` exceeding `processed`, by
more than one — contradicting the claim that `errored ≤ processed` holds
throughout the run. -/
theorem errored_exceeds_processed_between_increments :
    List.Perm
      [StatOp.addError, StatOp.addError, StatOp.addProcessed, StatOp.addProcessed]
      runTwoFailures.sink.ops
    ∧ statTrace [StatOp.addError, StatOp.addError, StatOp.addProcessed, StatOp.addProcessed]
        = [(0, 0), (0, 1), (0, 2), (1, 2), (2, 2)]
    ∧ ((statTrace [StatOp.addError, StatOp.addError, StatOp.addProcessed, StatOp.addProcessed]).any
        fun pe => decide (pe.1 + 2 ≤ pe.2)) = true :=
  ⟨by decide, rfl, rfl⟩

/-- C8 (amended): for every run and for every order `ops` in which the
separate atomic counter increments of its concurrent writes may execute
(any permutation of the recorded increment sequence — a superset of the
real interleavings), at completion the processed counter equals the number
of success records plus the number of error records and the errored
counter equals the number of error records, hence errored ≤ processed at
completion; and both counters are monotonically non-decreasing along the
whole trace.  No instantaneous bound of errored by processed is claimed:
between the increments of concurrent failure writes errored exceeds
processed by up to the number of such writes in flight. -/
theorem counters_final_equalities_and_bounds
    (reads : List ReadRes) (acqs : List AcqRes) (calls : List ProcResult)
    (ops : List StatOp)
    (hperm : List.Perm ops (RunWithModel reads acqs calls).sink.ops) :
    finalStats ops
      = ((RunWithModel reads acqs calls).sink.outStream.length
          + (RunWithModel reads acqs calls).sink.errStream.length,
         (RunWithModel reads acqs calls).sink.errStream.length)
    ∧ (finalStats ops).2 ≤ (finalStats ops).1
    ∧ List.Chain' (fun a b => a.1 ≤ b.1 ∧ a.2 ≤ b.2) (statTrace ops) := by
  have hg : SinkGood (RunWithModel reads acqs calls).sink :=
    sinkGood_runWith _ _ _ _ _ ⟨rfl, OpsBlocks.nil⟩
  have heq : finalStats ops = finalStats (RunWithModel reads acqs calls).sink.ops :=
    finalStats_perm _ _ hperm
  refine ⟨heq.trans hg.1, ?_, statTrace_chain _ _⟩
  rw [heq, hg.1]
  simp

/-- C8 witness: the amended statement instantiated at the concrete
two-failing-rows run, with the realizable interleaving in which both
failure writes increment the error counter before either increments the
processed counter. -/
theorem counters_final_equalities_and_bounds_witness :
    finalStats [StatOp.addError, StatOp.addError, StatOp.addProcessed, StatOp.addProcessed]
      = (runTwoFailures.sink.outStream.length + runTwoFailures.sink.errStream.length,
         runTwoFailures.sink.errStream.length)
    ∧ (finalStats [StatOp.addError, StatOp.addError, StatOp.addProcessed, StatOp.addProcessed]).2
        ≤ (finalStats [StatOp.addError, StatOp.addError, StatOp.addProcessed, StatOp.addProcessed]).1
    ∧ List.Chain' (fun a b => a.1 ≤ b.1 ∧ a.2 ≤ b.2)
        (statTrace [StatOp.addError, StatOp.addError, StatOp.addProcessed, StatOp.addProcessed]) :=
  counters_final_equalities_and_bounds
    [ReadRes.next (RowRead.ok [("x", JVal.num 1)]),
     ReadRes.next (RowRead.ok [("x", JVal.num 2)]), ReadRes.eof]
    [AcqRes.ok, AcqRes.ok]
    [ProcResult.failed "invalid status code 500" (some (JVal.str "boom")),
     ProcResult.failed "invalid status code 500" (some (JVal.str "boom"))]
    [StatOp.addError, StatOp.addError, StatOp.addProcessed, StatOp.addProcessed]
    (by decide)

/-- C9 counterexample: with a configured `Authorization: Basic Zm9v`
header and a non-empty token, `Do` overrides the configured Authorization
value with the bearer token, contradicting the claim that all configured
headers other than Content-Type are attached unchanged. -/
theorem authorization_header_overridden_by_token :
    doHeaders [("Authorization", ["Basic Zm9v"])] "tok123" "Authorization" = ["Bearer tok123"]
    ∧ ["Bearer tok123"] ≠ ["Basic Zm9v"] :=
  ⟨rfl, by decide⟩

/-- C9 (amended): on every outbound call the request's Content-Type header
is application/json, overriding any configured value; when a non-empty
token is available the Authorization header is likewise overridden with
the bearer token; every other header — and, when the token is empty, the
Authorization header too — carries exactly the configured values copied
by the header loop. -/
theorem request_headers_characterization
    (cfg : List (String × List String)) (tok k : String) :
    doHeaders cfg tok k =
      if k = "Content-Type" then ["application/json"]
      else if tok ≠ "" ∧ k = "Authorization" then ["Bearer " ++ tok]
      else copyConfigured cfg k := by
  have hCA : ("Content-Type" : String) ≠ "Authorization" := by decide
  by_cases hk : k = "Content-Type"
  · subst hk
    by_cases htok : tok = "" <;> simp [doHeaders, hdrSet, htok, hCA]
  · by_cases htok : tok = ""
    · simp [doHeaders, hdrSet, htok, hk]
    · by_cases hka : k = "Authorization"
      · subst hka
        simp [doHeaders, hdrSet, htok, hk]
      · simp [doHeaders, hdrSet, htok, hk, hka]

end BatchGraphQL
